import Mathlib

/-!
Verification development for the gossh repository: a shallow embedding of
its configuration validator (internal/config/config.go), SSH client factory
(internal/sshclient/client.go) and the two interactive read-eval-print
loops of the ui package (StartSFTPSession / ExecuteInteractiveCommand and
the SFTP command dispatcher executeSFTPCommand), together with theorems
about each claimed property.

Modelling conventions:
- Go strings are Lean `String`; the Go `int` Port is `Int`.
- `os.Stat`-style existence checks, `ioutil.ReadFile`, `ssh.ParsePrivateKey`
  and `ssh.Dial` are external effects; they are modelled by an explicit
  `World` of oracles passed to the embedded functions.
- A Go function returning `error` is modelled as returning `Option String`
  (`some msg` = the error, `none` = nil) or, when it also returns a value,
  `Except String α`. `fmt.Errorf("p: %w", e)` becomes `"p: " ++ e`.
- Standard input is modelled as the list of lines delivered before EOF.
- Remote SFTP state is a concrete filesystem model `RemoteFS`; every call
  the repository makes into the sftp library is recorded in a `LibCall`
  trace so that "performs no operation" claims are observable.
-/

/-- Embeds `config.SSHConfig` (internal/config/config.go). -/
structure SSHConfig where
  host : String
  port : Int
  username : String
  password : String
  keyFile : String
deriving Repr, DecidableEq

/-- Embeds `SSHConfig.Validate` (internal/config/config.go lines 26-55).
The receiver is read-only in the source, so the embedding is a pure
function of the config; the `fileExists` oracle stands for
`os.Stat`/`os.IsNotExist` on the key-file path. -/
def validate (fileExists : String → Bool) (c : SSHConfig) : Option String :=
  if c.host = "" then some "主机地址不能为空"
  else if c.username = "" then some "用户名不能为空"
  else if c.port ≤ 0 ∨ c.port > 65535 then some "端口必须在 1-65535 范围内"
  else if c.password = "" ∧ c.keyFile = "" then some "必须提供密码或私钥文件"
  else if c.keyFile ≠ "" ∧ ¬ fileExists c.keyFile then
    some ("指定的私钥文件不存在: " ++ c.keyFile)
  else none

/-- Embeds `SSHConfig.GetAddress` (internal/config/config.go line 61). -/
def getAddress (c : SSHConfig) : String :=
  c.host ++ ":" ++ toString c.port

/-- Embeds `SSHConfig.HasKeyAuth` (internal/config/config.go line 68). -/
def hasKeyAuth (c : SSHConfig) : Bool :=
  c.keyFile ≠ ""

/-- Embeds `SSHConfig.HasPasswordAuth` (internal/config/config.go line 75). -/
def hasPasswordAuth (c : SSHConfig) : Bool :=
  c.password ≠ ""

/-- The five checks of Validate, in the order the claim states them. -/
inductive ValidateCheck where
  | emptyHost
  | emptyUsername
  | portOutOfRange
  | noAuthMethod
  | keyFileMissing
deriving Repr, DecidableEq

/-- The error message Validate reports for each failing check. -/
def checkError (c : SSHConfig) : ValidateCheck → String
  | .emptyHost => "主机地址不能为空"
  | .emptyUsername => "用户名不能为空"
  | .portOutOfRange => "端口必须在 1-65535 范围内"
  | .noAuthMethod => "必须提供密码或私钥文件"
  | .keyFileMissing => "指定的私钥文件不存在: " ++ c.keyFile

/-- Spec-side definition, following the claim words: the first failing
check among, in order: empty Host; empty Username; Port out of 1-65535;
neither Password nor KeyFile given; KeyFile set but the path absent. -/
def firstFailingCheck (fileExists : String → Bool) (c : SSHConfig) :
    Option ValidateCheck :=
  if c.host = "" then some .emptyHost
  else if c.username = "" then some .emptyUsername
  else if c.port ≤ 0 ∨ c.port > 65535 then some .portOutOfRange
  else if c.password = "" ∧ c.keyFile = "" then some .noAuthMethod
  else if c.keyFile ≠ "" ∧ ¬ fileExists c.keyFile then some .keyFileMissing
  else none

/-- C1: Validate errors exactly when one of the five checks fails, the
reported error is the one of the first failing check in the stated order,
and it returns nil precisely when every check passes. (The embedding is a
pure function of the config, so the config is left unchanged by
construction.) -/
theorem validate_reports_first_failing_check
    (ex : String → Bool) (c : SSHConfig) :
    validate ex c = (firstFailingCheck ex c).map (checkError c)
    ∧ (validate ex c = none ↔
        (c.host ≠ "" ∧ c.username ≠ "" ∧ 0 < c.port ∧ c.port ≤ 65535
          ∧ (c.password ≠ "" ∨ c.keyFile ≠ "")
          ∧ (c.keyFile ≠ "" → ex c.keyFile = true))) := by
  unfold validate firstFailingCheck
  constructor
  · split_ifs <;> simp [checkError]
  · split_ifs with h1 h2 h3 h4 h5 <;>
      simp_all <;> first | omega | tauto

/-- An `ssh.AuthMethod` as the repository builds them: `ssh.Password(pw)`
or `ssh.PublicKeys(signer)`; the signer is the token returned by the
key-parsing oracle. -/
inductive AuthMethod where
  | password (pw : String)
  | publicKey (signer : String)
deriving Repr, DecidableEq

/-- An established `*ssh.Client` connection, abstracted to the one
behaviour the repository observes: the result of its `Close` method
(`none` = Close succeeds). -/
structure Conn where
  closeRes : Option String
deriving Repr, DecidableEq

/-- Embeds `sshclient.Client` (internal/sshclient/client.go lines 18-21);
the `conn` pointer may be nil, hence `Option`. -/
structure Client where
  config : SSHConfig
  conn : Option Conn
deriving Repr, DecidableEq

/-- The external effects the client factory performs: `os.Stat` existence
checks, `ioutil.ReadFile`, `ssh.ParsePrivateKey` (returning a signer
token) and `ssh.Dial` at an address with an auth-method list. -/
structure World where
  fileExists : String → Bool
  readFile : String → Except String String
  parseKey : String → Except String String
  dial : String → List AuthMethod → Except String Conn

/-- Embeds `addAuthMethods` (internal/sshclient/client.go lines 70-99).
The Go function assigns the collected list to `sshConfig.Auth` on success
and returns an error otherwise; the embedding returns the list in
`Except`. -/
def addAuthMethods (w : World) (cfg : SSHConfig) :
    Except String (List AuthMethod) :=
  let ms : List AuthMethod := []
  let ms := if hasPasswordAuth cfg then ms ++ [.password cfg.password] else ms
  if hasKeyAuth cfg then
    match w.readFile cfg.keyFile with
    | .error e => .error ("读取私钥文件失败: " ++ e)
    | .ok keyData =>
      match w.parseKey keyData with
      | .error e => .error ("解析私钥失败: " ++ e)
      | .ok signer => .ok (ms ++ [.publicKey signer])
  else .ok ms

/-- The externally visible steps NewClient takes after validation:
setting up authentication, then dialing. -/
inductive FactoryStep where
  | authSetup
  | dialAttempt (addr : String)
deriving Repr, DecidableEq

/-- Embeds `NewClient` (internal/sshclient/client.go lines 30-61),
instrumented with the trace of factory steps actually reached. The Go
return `(nil, err)` is `Except.error err`. -/
def newClient (w : World) (cfg : SSHConfig) :
    Except String Client × List FactoryStep :=
  match validate w.fileExists cfg with
  | some e => (.error ("配置验证失败: " ++ e), [])
  | none =>
    match addAuthMethods w cfg with
    | .error e => (.error ("配置认证方式失败: " ++ e), [.authSetup])
    | .ok ms =>
      match w.dial (getAddress cfg) ms with
      | .error e =>
        (.error ("SSH 连接失败: " ++ e), [.authSetup, .dialAttempt (getAddress cfg)])
      | .ok conn =>
        (.ok ⟨cfg, some conn⟩, [.authSetup, .dialAttempt (getAddress cfg)])

/-- Embeds `Client.Close` (internal/sshclient/client.go lines 144-149). -/
def closeClient (c : Client) : Option String :=
  match c.conn with
  | some k => k.closeRes
  | none => none

/-- C4: when validation fails NewClient returns no client, wraps the
validation error, and reaches neither auth setup nor the dial; when the
dial fails it returns no client and wraps the dial error; a client comes
back only when validation, auth setup and dial all succeed. -/
theorem newClient_error_propagation (w : World) (cfg : SSHConfig) :
    (∀ e, validate w.fileExists cfg = some e →
      newClient w cfg = (.error ("配置验证失败: " ++ e), []))
    ∧ (∀ ms e, validate w.fileExists cfg = none →
        addAuthMethods w cfg = .ok ms →
        w.dial (getAddress cfg) ms = .error e →
        (newClient w cfg).1 = .error ("SSH 连接失败: " ++ e))
    ∧ (∀ cl, (newClient w cfg).1 = .ok cl →
        validate w.fileExists cfg = none
        ∧ ∃ ms conn, addAuthMethods w cfg = .ok ms
            ∧ w.dial (getAddress cfg) ms = .ok conn
            ∧ cl = ⟨cfg, some conn⟩) := by
  refine ⟨?_, ?_, ?_⟩
  · intro e he
    simp [newClient, he]
  · intro ms e hv ha hd
    simp [newClient, hv, ha, hd]
  · intro cl hcl
    unfold newClient at hcl
    cases hv : validate w.fileExists cfg with
    | some e => simp [hv] at hcl
    | none =>
      simp only [hv] at hcl
      cases ha : addAuthMethods w cfg with
      | error e => simp [ha] at hcl
      | ok ms =>
        simp only [ha] at hcl
        cases hd : w.dial (getAddress cfg) ms with
        | error e => simp [hd] at hcl
        | ok conn =>
          simp [hd] at hcl
          exact ⟨rfl, ms, conn, rfl, hd, hcl.symm⟩

/-- A fixed world for witnesses: no file exists, reads, parses and dials
all fail. -/
def wFail : World where
  fileExists := fun _ => false
  readFile := fun _ => .error "read refused"
  parseKey := fun _ => .error "parse refused"
  dial := fun _ _ => .error "connection refused"

/-- Witness for C4 at a concrete config whose Host is empty. -/
theorem newClient_error_propagation_witness :
    newClient wFail ⟨"", 22, "root", "123456", ""⟩ =
      (.error ("配置验证失败: " ++ "主机地址不能为空"), []) :=
  (newClient_error_propagation wFail ⟨"", 22, "root", "123456", ""⟩).1
    "主机地址不能为空" rfl

/-- The key file named by the config can be both read and parsed. -/
def keyReadsAndParses (w : World) (cfg : SSHConfig) : Prop :=
  ∃ d s, w.readFile cfg.keyFile = .ok d ∧ w.parseKey d = .ok s

/-- C5: on success the auth-method list holds the password method exactly
when Password is non-empty and a public-key method exactly when KeyFile is
non-empty; a non-empty KeyFile whose read or parse fails makes
addAuthMethods error out (adding nothing); and a config that passed
Validate, whose key file (if any) reads and parses, yields a non-empty
auth-method list. -/
theorem addAuthMethods_selects_methods (w : World) (cfg : SSHConfig) :
    (∀ ms, addAuthMethods w cfg = .ok ms →
      ((AuthMethod.password cfg.password ∈ ms ↔ cfg.password ≠ "")
        ∧ ((∃ s, AuthMethod.publicKey s ∈ ms) ↔ cfg.keyFile ≠ "")))
    ∧ (cfg.keyFile ≠ "" → ¬ keyReadsAndParses w cfg →
        ∃ e, addAuthMethods w cfg = .error e)
    ∧ (validate w.fileExists cfg = none →
        (cfg.keyFile ≠ "" → keyReadsAndParses w cfg) →
        ∃ ms, addAuthMethods w cfg = .ok ms ∧ ms ≠ []) := by
  refine ⟨?_, ?_, ?_⟩
  · intro ms hms
    unfold addAuthMethods at hms
    by_cases hk : hasKeyAuth cfg
    · simp only [hk, if_true] at hms
      cases hr : w.readFile cfg.keyFile with
      | error e => simp [hr] at hms
      | ok d =>
        simp only [hr] at hms
        cases hp : w.parseKey d with
        | error e => simp [hp] at hms
        | ok s =>
          simp only [hp] at hms
          simp only [Except.ok.injEq] at hms
          subst hms
          by_cases hpw : hasPasswordAuth cfg <;>
            simp_all [hasPasswordAuth, hasKeyAuth]
    · simp only [hk] at hms
      simp only [Bool.false_eq_true, if_false, Except.ok.injEq] at hms
      subst hms
      by_cases hpw : hasPasswordAuth cfg <;>
        simp_all [hasPasswordAuth, hasKeyAuth]
  · intro hk hnr
    have hk' : hasKeyAuth cfg = true := by simpa [hasKeyAuth] using hk
    unfold addAuthMethods
    simp only [hk', if_true]
    cases hr : w.readFile cfg.keyFile with
    | error e => exact ⟨_, rfl⟩
    | ok d =>
      dsimp only
      cases hp : w.parseKey d with
      | error e => exact ⟨_, rfl⟩
      | ok s => exact absurd ⟨d, s, hr, hp⟩ hnr
  · intro hv hkr
    have hauth : cfg.password ≠ "" ∨ cfg.keyFile ≠ "" :=
      ((validate_reports_first_failing_check w.fileExists cfg).2.mp hv).2.2.2.2.1
    unfold addAuthMethods
    by_cases hk : cfg.keyFile = ""
    · have hpw : cfg.password ≠ "" := by tauto
      simp [hasKeyAuth, hasPasswordAuth, hk, hpw]
    · obtain ⟨d, s, hr, hp⟩ := hkr hk
      simp [hasKeyAuth, hk, hr, hp]

/-- Witness for C5: a password-only config that passes Validate yields a
non-empty auth-method list even in the failing world. -/
theorem addAuthMethods_selects_methods_witness :
    ∃ ms, addAuthMethods wFail ⟨"h", 22, "root", "pw", ""⟩ = .ok ms ∧ ms ≠ [] :=
  (addAuthMethods_selects_methods wFail ⟨"h", 22, "root", "pw", ""⟩).2.2
    rfl (fun h => absurd rfl h)

/-- C10: Close on a client whose connection is nil returns nil (taking the
nil branch, never touching a connection), and any Close error comes from a
live connection whose own Close failed. -/
theorem closeClient_nil_safe (c : Client) :
    (c.conn = none → closeClient c = none)
    ∧ (∀ e, closeClient c = some e →
        ∃ k, c.conn = some k ∧ k.closeRes = some e) := by
  constructor
  · intro h
    simp [closeClient, h]
  · intro e he
    cases hk : c.conn with
    | none => simp [closeClient, hk] at he
    | some k => exact ⟨k, rfl, by simpa [closeClient, hk] using he⟩

/-- Witness for C10: an unconnected client closes without error. -/
theorem closeClient_nil_safe_witness :
    closeClient ⟨⟨"h", 22, "root", "pw", ""⟩, none⟩ = none :=
  (closeClient_nil_safe ⟨⟨"h", 22, "root", "pw", ""⟩, none⟩).1 rfl

/-- A remote directory entry as the repository reads it: name, size and
directory flag (ui sftp module, listRemoteDirectory). -/
structure FileInfo where
  name : String
  size : Nat
  isDir : Bool
deriving Repr, DecidableEq

/-- A concrete model of the remote end of the SFTP connection: the working
directory reported by Getwd, the readable directories with their listings,
and the set of existing file paths. -/
structure RemoteFS where
  cwd : String
  dirs : List (String × List FileInfo)
  files : List String
deriving Repr, DecidableEq

/-- The calls the repository makes into the sftp library from the
interactive dispatcher. -/
inductive LibCall where
  | readDir (dir : String)
  | getwd
  | stat (path : String)
  | mkdir (dir : String)
  | remove (path : String)
deriving Repr, DecidableEq

/-- Model of `sftp.Client.ReadDir`: succeeds on a known directory. -/
def readDirFS (fs : RemoteFS) (dir : String) :
    Except String (List FileInfo) :=
  match fs.dirs.lookup dir with
  | some listing => .ok listing
  | none => .error "no such directory"

/-- Model of `sftp.Client.Getwd`. -/
def getwdFS (fs : RemoteFS) : Except String String :=
  .ok fs.cwd

/-- Model of `sftp.Client.Stat`: succeeds on an existing file or
directory. -/
def statFS (fs : RemoteFS) (path : String) : Except String Unit :=
  if path ∈ fs.files ∨ (fs.dirs.lookup path).isSome then .ok ()
  else .error "file does not exist"

/-- Model of `sftp.Client.Mkdir`: adds a fresh directory, fails if the
path already exists. -/
def mkdirFS (fs : RemoteFS) (dir : String) : Except String RemoteFS :=
  if (fs.dirs.lookup dir).isSome ∨ dir ∈ fs.files then .error "already exists"
  else .ok { fs with dirs := (dir, []) :: fs.dirs }

/-- Model of `sftp.Client.Remove`: deletes an existing file. -/
def removeFS (fs : RemoteFS) (path : String) : Except String RemoteFS :=
  if path ∈ fs.files then .ok { fs with files := fs.files.erase path }
  else .error "file does not exist"

/-- Outcome of one dispatched SFTP command: the remote state afterwards,
the trace of sftp-library calls made, and the returned Go error. -/
structure OpResult where
  fs : RemoteFS
  calls : List LibCall
  err : Option String
deriving Repr, DecidableEq

/-- Embeds `listRemoteDirectory` (ui sftp module): `ls` with an optional
directory argument, defaulting to ".". Printing of the listing is not
modelled. -/
def listRemoteDirectory (fs : RemoteFS) (args : List String) : OpResult :=
  let dir := match args with
    | [] => "."
    | a :: _ => a
  match readDirFS fs dir with
  | .error e => ⟨fs, [.readDir dir], some ("读取目录失败: " ++ e)⟩
  | .ok _ => ⟨fs, [.readDir dir], none⟩

/-- Embeds `showRemotePwd` (ui sftp module): `pwd`. -/
def showRemotePwd (fs : RemoteFS) : OpResult :=
  match getwdFS fs with
  | .error e => ⟨fs, [.getwd], some ("获取当前目录失败: " ++ e)⟩
  | .ok _ => ⟨fs, [.getwd], none⟩

/-- Embeds `changeRemoteDirectory` (ui sftp module): `cd` only stats the
target and prints a notice; the SFTP protocol has no working-directory
change, and the function performs none. -/
def changeRemoteDirectory (fs : RemoteFS) (args : List String) : OpResult :=
  match args with
  | [] => ⟨fs, [], some "请指定要切换到的目录"⟩
  | a :: _ =>
    match statFS fs a with
    | .error e => ⟨fs, [.stat a], some ("目录不存在或无法访问: " ++ e)⟩
    | .ok _ => ⟨fs, [.stat a], none⟩

/-- Embeds `uploadFileCommand` (ui sftp module): `put` always errors,
either for the missing argument or with the stub message; it makes no
library call. -/
def uploadFileCommand (fs : RemoteFS) (args : List String) : OpResult :=
  match args with
  | [] => ⟨fs, [], some "请指定要上传的本地文件"⟩
  | _ :: _ => ⟨fs, [], some "上传功能需要完整的客户端对象"⟩

/-- Embeds `downloadFileCommand` (ui sftp module): `get`, same stub shape
as `put`. -/
def downloadFileCommand (fs : RemoteFS) (args : List String) : OpResult :=
  match args with
  | [] => ⟨fs, [], some "请指定要下载的远程文件"⟩
  | _ :: _ => ⟨fs, [], some "下载功能需要完整的客户端对象"⟩

/-- Embeds `createRemoteDirectory` (ui sftp module): `mkdir`. -/
def createRemoteDirectory (fs : RemoteFS) (args : List String) : OpResult :=
  match args with
  | [] => ⟨fs, [], some "请指定要创建的目录名"⟩
  | a :: _ =>
    match mkdirFS fs a with
    | .error e => ⟨fs, [.mkdir a], some ("创建目录失败: " ++ e)⟩
    | .ok fs2 => ⟨fs2, [.mkdir a], none⟩

/-- Embeds `removeRemoteFile` (ui sftp module): `rm`. -/
def removeRemoteFile (fs : RemoteFS) (args : List String) : OpResult :=
  match args with
  | [] => ⟨fs, [], some "请指定要删除的文件名"⟩
  | a :: _ =>
    match removeFS fs a with
    | .error e => ⟨fs, [.remove a], some ("删除文件失败: " ++ e)⟩
    | .ok fs2 => ⟨fs2, [.remove a], none⟩

/-- The unknown-command error of the dispatcher (the printed hint suffix
of the source message is not modelled). -/
def unknownCommandError (command : String) : String :=
  "未知命令: " ++ command

/-- Embeds `executeSFTPCommand` (ui sftp module): the switch over the
command name, in source order; `help` only prints, `exit`/`quit` only
print and return nil. -/
def executeSFTPCommand (fs : RemoteFS) (command : String) (args : List String) :
    OpResult :=
  if command = "help" then ⟨fs, [], none⟩
  else if command = "ls" ∨ command = "dir" then listRemoteDirectory fs args
  else if command = "pwd" then showRemotePwd fs
  else if command = "cd" then changeRemoteDirectory fs args
  else if command = "get" then downloadFileCommand fs args
  else if command = "put" then uploadFileCommand fs args
  else if command = "mkdir" then createRemoteDirectory fs args
  else if command = "rm" then removeRemoteFile fs args
  else if command = "exit" ∨ command = "quit" then ⟨fs, [], none⟩
  else ⟨fs, [], some (unknownCommandError command)⟩

/-- A small concrete remote filesystem for counterexamples and
witnesses. -/
def fsDemo : RemoteFS :=
  ⟨"/home/root", [(".", []), ("/tmp", [])], ["/tmp/a.txt"]⟩

/-- Counterexample to C2: the command string "dir" lies outside the
claimed nine-name set, yet the dispatcher does not return an
unknown-command error for it: it performs the ls operation (a ReadDir
library call). -/
theorem executeSFTPCommand_dir_not_unknown :
    ("dir" ∉ ["ls", "cd", "get", "put", "mkdir", "rm", "pwd", "help", "exit"])
    ∧ (executeSFTPCommand fsDemo "dir" []).err = none
    ∧ (executeSFTPCommand fsDemo "dir" []).calls = [.readDir "."] := by
  refine ⟨by decide, rfl, rfl⟩

/-- C2 (amended): the dispatcher recognizes ls, cd, get, put, mkdir, rm,
pwd, help and exit together with the aliases dir (for ls) and quit (for
exit); each recognized name dispatches to its operation, and every command
string outside this eleven-name set yields the unknown-command error with
no library call and no remote-state change. -/
theorem executeSFTPCommand_dispatch
    (fs : RemoteFS) (command : String) (args : List String) :
    ((executeSFTPCommand fs "help" args = ⟨fs, [], none⟩
      ∧ executeSFTPCommand fs "ls" args = listRemoteDirectory fs args
      ∧ executeSFTPCommand fs "dir" args = listRemoteDirectory fs args
      ∧ executeSFTPCommand fs "pwd" args = showRemotePwd fs
      ∧ executeSFTPCommand fs "cd" args = changeRemoteDirectory fs args
      ∧ executeSFTPCommand fs "get" args = downloadFileCommand fs args
      ∧ executeSFTPCommand fs "put" args = uploadFileCommand fs args
      ∧ executeSFTPCommand fs "mkdir" args = createRemoteDirectory fs args
      ∧ executeSFTPCommand fs "rm" args = removeRemoteFile fs args
      ∧ executeSFTPCommand fs "exit" args = ⟨fs, [], none⟩
      ∧ executeSFTPCommand fs "quit" args = ⟨fs, [], none⟩)
    ∧ (command ∉ ["help", "ls", "dir", "pwd", "cd", "get", "put", "mkdir",
          "rm", "exit", "quit"] →
        executeSFTPCommand fs command args =
          ⟨fs, [], some (unknownCommandError command)⟩)) := by
  constructor
  · exact ⟨rfl, rfl, rfl, rfl, rfl, rfl, rfl, rfl, rfl, rfl, rfl⟩
  · intro h
    simp only [List.mem_cons, List.not_mem_nil, or_false, not_or] at h
    obtain ⟨h1, h2, h3, h4, h5, h6, h7, h8, h9, h10, h11⟩ := h
    simp [executeSFTPCommand, h1, h2, h3, h4, h5, h6, h7, h8, h9, h10, h11]

/-- Witness for C2 (amended): an unrecognized command string gets the
unknown-command error and triggers nothing. -/
theorem executeSFTPCommand_dispatch_witness :
    executeSFTPCommand fsDemo "frobnicate" [] =
      ⟨fsDemo, [], some (unknownCommandError "frobnicate")⟩ :=
  (executeSFTPCommand_dispatch fsDemo "frobnicate" []).2 (by decide)

/-- C8: the interactive cd never changes the remote state: without an
argument it errors making no library call; with an argument it only stats
the target, erroring exactly when the stat fails; the state is unchanged
either way, so pwd after cd reports the same directory as before. -/
theorem changeRemoteDirectory_frame (fs : RemoteFS) (args : List String) :
    (changeRemoteDirectory fs args).fs = fs
    ∧ showRemotePwd (executeSFTPCommand fs "cd" args).fs = showRemotePwd fs
    ∧ (args = [] →
        changeRemoteDirectory fs args = ⟨fs, [], some "请指定要切换到的目录"⟩)
    ∧ (∀ a rest, args = a :: rest →
        (changeRemoteDirectory fs args).calls = [.stat a]
        ∧ ((changeRemoteDirectory fs args).err = none ↔ statFS fs a = .ok ())) := by
  have hfs : (changeRemoteDirectory fs args).fs = fs := by
    cases args with
    | nil => rfl
    | cons a rest =>
      cases hs : statFS fs a <;> simp [changeRemoteDirectory, hs]
  refine ⟨hfs, ?_, ?_, ?_⟩
  · have h : executeSFTPCommand fs "cd" args = changeRemoteDirectory fs args := rfl
    rw [h, hfs]
  · intro h
    subst h
    rfl
  · intro a rest h
    subst h
    cases hs : statFS fs a <;> simp [changeRemoteDirectory, hs]

/-- Witness for C8: cd onto an existing path makes exactly the one stat
call and succeeds. -/
theorem changeRemoteDirectory_frame_witness :
    (changeRemoteDirectory fsDemo ["/tmp/a.txt"]).calls = [.stat "/tmp/a.txt"]
    ∧ ((changeRemoteDirectory fsDemo ["/tmp/a.txt"]).err = none ↔
        statFS fsDemo "/tmp/a.txt" = .ok ()) :=
  (changeRemoteDirectory_frame fsDemo ["/tmp/a.txt"]).2.2.2 "/tmp/a.txt" [] rfl

/-- C9: the interactive get and put commands always return an error, make
no library call and leave the remote state alone: the missing-argument
error on an empty argument list and the full-client-required stub error
otherwise; no file transfer happens on this path. -/
theorem getPut_always_error (fs : RemoteFS) (args : List String) :
    ((uploadFileCommand fs args).err ≠ none
      ∧ (uploadFileCommand fs args).calls = []
      ∧ (uploadFileCommand fs args).fs = fs
      ∧ (args = [] →
          (uploadFileCommand fs args).err = some "请指定要上传的本地文件")
      ∧ (args ≠ [] →
          (uploadFileCommand fs args).err = some "上传功能需要完整的客户端对象"))
    ∧ ((downloadFileCommand fs args).err ≠ none
      ∧ (downloadFileCommand fs args).calls = []
      ∧ (downloadFileCommand fs args).fs = fs
      ∧ (args = [] →
          (downloadFileCommand fs args).err = some "请指定要下载的远程文件")
      ∧ (args ≠ [] →
          (downloadFileCommand fs args).err = some "下载功能需要完整的客户端对象")) := by
  cases args with
  | nil =>
    exact ⟨⟨by simp [uploadFileCommand], rfl, rfl, fun _ => rfl, fun h => absurd rfl h⟩,
      ⟨by simp [downloadFileCommand], rfl, rfl, fun _ => rfl, fun h => absurd rfl h⟩⟩
  | cons a rest =>
    exact ⟨⟨by simp [uploadFileCommand], rfl, rfl, fun h => by simp at h, fun _ => rfl⟩,
      ⟨by simp [downloadFileCommand], rfl, rfl, fun h => by simp at h, fun _ => rfl⟩⟩

/-- Witness for C9: put with an argument still errors with the stub
message. -/
theorem getPut_always_error_witness :
    (uploadFileCommand fsDemo ["a.txt"]).err = some "上传功能需要完整的客户端对象" :=
  (getPut_always_error fsDemo ["a.txt"]).1.2.2.2.2 (by simp)

/-- Word splitter underlying `strings.Fields`: scan the characters,
collecting maximal runs of non-whitespace; `cur` holds the word being
built, reversed. -/
def fieldsAux : List Char → List Char → List (List Char)
  | cur, [] => if cur = [] then [] else [cur.reverse]
  | cur, c :: cs =>
    if c.isWhitespace then
      if cur = [] then fieldsAux [] cs
      else cur.reverse :: fieldsAux [] cs
    else fieldsAux (c :: cur) cs

/-- Model of `strings.TrimSpace` on the character list: drop whitespace
from both ends. -/
def trimChars (cs : List Char) : List Char :=
  ((cs.dropWhile Char.isWhitespace).reverse.dropWhile Char.isWhitespace).reverse

/-- Model of `strings.TrimSpace`. -/
def trimSpace (s : String) : String :=
  ⟨trimChars s.data⟩

/-- Model of `strings.Fields`: the whitespace-separated words of the
string. -/
def fields (s : String) : List String :=
  (fieldsAux [] s.data).map String.mk

/-- The parsing both done by the SFTP loop on each input line:
`strings.Fields(strings.TrimSpace(input))`. -/
def lineFields (line : String) : List String :=
  fields (trimSpace line)

theorem fieldsAux_ne_nil (cur cs : List Char) (h : cur ≠ []) :
    fieldsAux cur cs ≠ [] := by
  induction cs generalizing cur with
  | nil => simp [fieldsAux, h]
  | cons c cs ih =>
    by_cases hw : c.isWhitespace
    · simp [fieldsAux, hw, h]
    · simpa [fieldsAux, hw] using ih (c :: cur) (by simp)

theorem fieldsAux_nil_iff (cs : List Char) :
    fieldsAux [] cs = [] ↔ ∀ c ∈ cs, c.isWhitespace := by
  induction cs with
  | nil => simp [fieldsAux]
  | cons c cs ih =>
    by_cases hw : c.isWhitespace
    · simpa [fieldsAux, hw] using ih
    · have h1 : fieldsAux (c :: []) cs ≠ [] := fieldsAux_ne_nil _ _ (by simp)
      simp only [fieldsAux, hw, if_false]
      constructor
      · intro h
        exact absurd h h1
      · intro h
        exact absurd (h c (by simp)) (by simpa using hw)

theorem mem_of_mem_dropWhile {α : Type} {c : α} {p : α → Bool} {l : List α}
    (h : c ∈ l.dropWhile p) : c ∈ l := by
  conv => rw [← List.takeWhile_append_dropWhile (p := p) (l := l)]
  exact List.mem_append.mpr (Or.inr h)

theorem allWS_of_dropWhile (cs : List Char)
    (h : ∀ c ∈ cs.dropWhile Char.isWhitespace, c.isWhitespace) :
    ∀ c ∈ cs, c.isWhitespace := by
  intro c hc
  rw [← List.takeWhile_append_dropWhile (p := Char.isWhitespace) (l := cs)] at hc
  rcases List.mem_append.mp hc with h1 | h2
  · exact List.mem_takeWhile_imp h1
  · exact h c h2

theorem trimChars_allWS_iff (cs : List Char) :
    (∀ c ∈ trimChars cs, c.isWhitespace) ↔ ∀ c ∈ cs, c.isWhitespace := by
  unfold trimChars
  constructor
  · intro h
    have hB : ∀ c ∈ (cs.dropWhile Char.isWhitespace).reverse.dropWhile
        Char.isWhitespace, c.isWhitespace := by
      intro c hc
      exact h c (by simpa using hc)
    have hA : ∀ c ∈ (cs.dropWhile Char.isWhitespace).reverse, c.isWhitespace :=
      allWS_of_dropWhile _ hB
    apply allWS_of_dropWhile
    intro c hc
    exact hA c (by simpa using hc)
  · intro h c hc
    rw [List.mem_reverse] at hc
    have h2 := mem_of_mem_dropWhile hc
    rw [List.mem_reverse] at h2
    exact h c (mem_of_mem_dropWhile h2)

theorem lineFields_nil_iff (line : String) :
    lineFields line = [] ↔ ∀ c ∈ line.data, c.isWhitespace := by
  unfold lineFields fields trimSpace
  rw [List.map_eq_nil_iff]
  exact (fieldsAux_nil_iff _).trans (trimChars_allWS_iff _)

/-- One run of the SFTP session command loop (StartSFTPSession, ui sftp
module) over an input stream: the remote state at the end, the trace of
sftp-library calls, the input lines the loop processed, and the value the
function returns (Go nil = `none`). -/
structure SFTPRun where
  fs : RemoteFS
  calls : List LibCall
  consumed : List String
  ret : Option String
deriving Repr, DecidableEq

/-- Embeds the command loop of `StartSFTPSession` (ui sftp module), after
the SFTP client was created: read a line (end of list = EOF, which breaks
the loop), split it with `strings.Fields(strings.TrimSpace(...))`, skip
empty lines, dispatch `executeSFTPCommand` printing any error, and break
after an exit/quit command. -/
def startSFTPSession : RemoteFS → List String → SFTPRun
  | fs, [] => ⟨fs, [], [], none⟩
  | fs, line :: rest =>
    match lineFields line with
    | [] =>
      let r := startSFTPSession fs rest
      ⟨r.fs, r.calls, line :: r.consumed, r.ret⟩
    | command :: args =>
      let e := executeSFTPCommand fs command args
      if command = "exit" ∨ command = "quit" then ⟨e.fs, e.calls, [line], none⟩
      else
        let r := startSFTPSession e.fs rest
        ⟨r.fs, e.calls ++ r.calls, line :: r.consumed, r.ret⟩

/-- One run of the interactive command loop (ExecuteInteractiveCommand, ui
package): the commands sent to `Client.ExecuteCommand` with the oracle
results, the input lines processed, and the returned value. -/
structure InterRun where
  executed : List (String × Except String String)
  consumed : List String
  ret : Option String
deriving Repr

/-- Embeds `ExecuteInteractiveCommand` (ui package): read a line (EOF
breaks), trim it, break on exit/quit, skip empty lines, otherwise pass the
whole trimmed line to `Client.ExecuteCommand` (modelled by the `exec`
oracle), printing output or error either way. -/
def executeInteractiveCommand (exec : String → Except String String) :
    List String → InterRun
  | [] => ⟨[], [], none⟩
  | line :: rest =>
    let command := trimSpace line
    if command = "exit" ∨ command = "quit" then ⟨[], [line], none⟩
    else if command = "" then
      let r := executeInteractiveCommand exec rest
      ⟨r.executed, line :: r.consumed, r.ret⟩
    else
      let r := executeInteractiveCommand exec rest
      ⟨(command, exec command) :: r.executed, line :: r.consumed, r.ret⟩

/-- Spec-side definition, following the claim words: the prefix of the
input stream up to and including the first line passing the exit test, or
the whole stream when no line passes it (loop runs to EOF). -/
def takeThroughFirst (p : String → Bool) : List String → List String
  | [] => []
  | l :: rest => if p l then [l] else l :: takeThroughFirst p rest

/-- A line whose first field is the exit command (exit/quit): the exit
test used by the SFTP loop. -/
def sftpExitLine (l : String) : Bool :=
  match lineFields l with
  | [] => false
  | command :: _ => command = "exit" || command = "quit"

/-- A line whose trimmed text is the exit command (exit/quit): the exit
test used by the interactive loop. -/
def interExitLine (l : String) : Bool :=
  trimSpace l = "exit" || trimSpace l = "quit"

theorem startSFTPSession_consumed_ret (fs : RemoteFS) (lines : List String) :
    (startSFTPSession fs lines).consumed = takeThroughFirst sftpExitLine lines
    ∧ (startSFTPSession fs lines).ret = none := by
  induction lines generalizing fs with
  | nil => exact ⟨rfl, rfl⟩
  | cons line rest ih =>
    cases hf : lineFields line with
    | nil =>
      have hx : sftpExitLine line = false := by simp [sftpExitLine, hf]
      simp [startSFTPSession, hf, takeThroughFirst, hx, (ih fs).1, (ih fs).2]
    | cons command args =>
      by_cases hx : command = "exit" ∨ command = "quit"
      · have hp : sftpExitLine line = true := by
          simp [sftpExitLine, hf]
          tauto
        simp [startSFTPSession, hf, hx, takeThroughFirst, hp]
      · have hp : sftpExitLine line = false := by
          simp [sftpExitLine, hf]
          tauto
        simp [startSFTPSession, hf, hx, takeThroughFirst, hp,
          (ih (executeSFTPCommand fs command args).fs).1,
          (ih (executeSFTPCommand fs command args).fs).2]

theorem executeInteractiveCommand_consumed_ret
    (exec : String → Except String String) (lines : List String) :
    (executeInteractiveCommand exec lines).consumed =
      takeThroughFirst interExitLine lines
    ∧ (executeInteractiveCommand exec lines).ret = none := by
  induction lines with
  | nil => exact ⟨rfl, rfl⟩
  | cons line rest ih =>
    by_cases hx : trimSpace line = "exit" ∨ trimSpace line = "quit"
    · have hp : interExitLine line = true := by
        simp [interExitLine]
        tauto
      simp [executeInteractiveCommand, hx, takeThroughFirst, hp]
    · have hp : interExitLine line = false := by
        simp [interExitLine]
        tauto
      by_cases hb : trimSpace line = "" <;>
        simp [executeInteractiveCommand, hx, hb, takeThroughFirst, hp, ih.1, ih.2]

/-- C3: both loops process exactly the input prefix up to and including
the first exit line - to EOF when there is none - and in either case
return nil: the exit test of the SFTP loop is the first field being
exit/quit, that of the interactive loop the whole trimmed line being
exit/quit. -/
theorem loops_run_until_exit_or_eof
    (fs : RemoteFS) (exec : String → Except String String)
    (lines : List String) :
    ((startSFTPSession fs lines).ret = none
      ∧ (startSFTPSession fs lines).consumed =
          takeThroughFirst sftpExitLine lines)
    ∧ ((executeInteractiveCommand exec lines).ret = none
      ∧ (executeInteractiveCommand exec lines).consumed =
          takeThroughFirst interExitLine lines) :=
  ⟨⟨(startSFTPSession_consumed_ret fs lines).2,
      (startSFTPSession_consumed_ret fs lines).1⟩,
    ⟨(executeInteractiveCommand_consumed_ret exec lines).2,
      (executeInteractiveCommand_consumed_ret exec lines).1⟩⟩

theorem executeSFTPCommand_calls_le_one
    (fs : RemoteFS) (command : String) (args : List String) :
    (executeSFTPCommand fs command args).calls.length ≤ 1 := by
  have hls : ∀ a : List String, (listRemoteDirectory fs a).calls.length ≤ 1 := by
    intro a
    unfold listRemoteDirectory
    cases h : readDirFS fs (match a with | [] => "." | b :: _ => b) <;> simp [h]
  have hpwd : (showRemotePwd fs).calls.length ≤ 1 := by
    unfold showRemotePwd
    cases h : getwdFS fs <;> simp [h]
  have hcd : ∀ a : List String, (changeRemoteDirectory fs a).calls.length ≤ 1 := by
    intro a
    cases a with
    | nil => simp [changeRemoteDirectory]
    | cons b rest =>
      cases h : statFS fs b <;> simp [changeRemoteDirectory, h]
  have hget : ∀ a : List String, (downloadFileCommand fs a).calls.length ≤ 1 := by
    intro a
    cases a <;> simp [downloadFileCommand]
  have hput : ∀ a : List String, (uploadFileCommand fs a).calls.length ≤ 1 := by
    intro a
    cases a <;> simp [uploadFileCommand]
  have hmk : ∀ a : List String, (createRemoteDirectory fs a).calls.length ≤ 1 := by
    intro a
    cases a with
    | nil => simp [createRemoteDirectory]
    | cons b rest =>
      cases h : mkdirFS fs b <;> simp [createRemoteDirectory, h]
  have hrm : ∀ a : List String, (removeRemoteFile fs a).calls.length ≤ 1 := by
    intro a
    cases a with
    | nil => simp [removeRemoteFile]
    | cons b rest =>
      cases h : removeFS fs b <;> simp [removeRemoteFile, h]
  unfold executeSFTPCommand
  split_ifs <;>
    first
      | exact hls args
      | exact hpwd
      | exact hcd args
      | exact hget args
      | exact hput args
      | exact hmk args
      | exact hrm args
      | simp

theorem startSFTPSession_calls_le_consumed (fs : RemoteFS) (lines : List String) :
    (startSFTPSession fs lines).calls.length ≤
      (startSFTPSession fs lines).consumed.length := by
  induction lines generalizing fs with
  | nil => simp [startSFTPSession]
  | cons line rest ih =>
    cases hf : lineFields line with
    | nil =>
      simp only [startSFTPSession, hf, List.length_cons]
      exact le_trans (ih fs) (Nat.le_succ _)
    | cons command args =>
      by_cases hx : command = "exit" ∨ command = "quit"
      · simp only [startSFTPSession, hf, hx, if_true, List.length_cons,
          List.length_nil]
        exact executeSFTPCommand_calls_le_one fs command args
      · simp only [startSFTPSession, hf, hx, if_false, List.length_append,
          List.length_cons]
        have h1 := executeSFTPCommand_calls_le_one fs command args
        have h2 := ih (executeSFTPCommand fs command args).fs
        omega

/-- C7: each dispatched line triggers at most one sftp-library call, so a
whole session makes at most one call per processed line, and the
progression of the loop through the input - one line dispatched once, then on to the
next regardless of errors - is a function of the input lines alone, not of
the remote state the errors come from. -/
theorem sftp_ops_single_call
    (fs : RemoteFS) (command : String) (args : List String)
    (lines : List String) :
    (executeSFTPCommand fs command args).calls.length ≤ 1
    ∧ (startSFTPSession fs lines).calls.length ≤
        (startSFTPSession fs lines).consumed.length
    ∧ (startSFTPSession fs lines).consumed =
        takeThroughFirst sftpExitLine lines :=
  ⟨executeSFTPCommand_calls_le_one fs command args,
    startSFTPSession_calls_le_consumed fs lines,
    (startSFTPSession_consumed_ret fs lines).1⟩

/-- A fixed remote-execution oracle for counterexamples and witnesses. -/
def execDemo : String → Except String String :=
  fun _ => .ok ""

/-- Counterexample to C6: the interactive command loop does not split its
line into command and argument fields: on the line "echo hi" it passes the
whole trimmed line to ExecuteCommand, although the fields of the line are
["echo", "hi"] and the claimed dispatch would receive the command "echo"
with the argument list ["hi"]. -/
theorem interactive_loop_does_not_split :
    (executeInteractiveCommand execDemo ["echo hi"]).executed =
      [("echo hi", execDemo "echo hi")]
    ∧ lineFields "echo hi" = ["echo", "hi"]
    ∧ ("echo hi" : String) ≠ "echo" := by
  refine ⟨rfl, by decide, by decide⟩

/-- C6 (amended): the SFTP loop trims each line and splits it on
whitespace into fields, skips a line that is empty or all whitespace
entirely (no dispatch, no library call, no error), and otherwise
dispatches the first field as the command with the remaining fields as the
argument list; the interactive command loop instead only trims the line,
skips blank lines, and passes the entire trimmed line, unsplit, to
ExecuteCommand. -/
theorem line_parsing_per_loop
    (fs : RemoteFS) (exec : String → Except String String)
    (line : String) (rest : List String) :
    (lineFields line = [] ↔ ∀ c ∈ line.data, c.isWhitespace)
    ∧ (lineFields line = [] →
        startSFTPSession fs (line :: rest) =
          ⟨(startSFTPSession fs rest).fs, (startSFTPSession fs rest).calls,
            line :: (startSFTPSession fs rest).consumed,
            (startSFTPSession fs rest).ret⟩)
    ∧ (∀ command args, lineFields line = command :: args →
        ¬ (command = "exit" ∨ command = "quit") →
        startSFTPSession fs (line :: rest) =
          ⟨(startSFTPSession (executeSFTPCommand fs command args).fs rest).fs,
            (executeSFTPCommand fs command args).calls ++
              (startSFTPSession (executeSFTPCommand fs command args).fs
                rest).calls,
            line :: (startSFTPSession (executeSFTPCommand fs command args).fs
                rest).consumed,
            (startSFTPSession (executeSFTPCommand fs command args).fs
              rest).ret⟩)
    ∧ (trimSpace line ≠ "" →
        ¬ (trimSpace line = "exit" ∨ trimSpace line = "quit") →
        (executeInteractiveCommand exec (line :: rest)).executed =
          (trimSpace line, exec (trimSpace line)) ::
            (executeInteractiveCommand exec rest).executed) := by
  refine ⟨lineFields_nil_iff line, ?_, ?_, ?_⟩
  · intro h
    simp [startSFTPSession, h]
  · intro command args h hx
    simp [startSFTPSession, h, hx]
  · intro hb hx
    simp [executeInteractiveCommand, hx, hb]

/-- Witness for C6 (amended): a non-blank, non-exit line reaches
ExecuteCommand whole. -/
theorem line_parsing_per_loop_witness :
    (executeInteractiveCommand execDemo ["ls -la", "exit"]).executed =
      ("ls -la", execDemo "ls -la") ::
        (executeInteractiveCommand execDemo ["exit"]).executed :=
  (line_parsing_per_loop fsDemo execDemo "ls -la" ["exit"]).2.2.2
    (by decide) (by decide)
